import Mathlib

/-!
# Verification of the `replicated` request dispatcher and test cleanup coordinator

Shallow embedding of

* `cli/cmd/api_post.go` : `apiPost`
* `cli/test/util.go`    : `deleteApp`, `cleanupApps`, `doDeleteApp`, `GetParams`

Go `string` values are embedded as Lean `String` (sequences of characters; the only
separator ever searched for is the ASCII character `/`, which never occurs inside a
multi-byte UTF-8 encoding, so splitting characters and splitting bytes agree).

Collaborators that live outside the repository (the HTTP transport, the JSON decoder, the
`kotsclient` endpoint client, the process environment) are parameters of the embedded
functions; every call made on them is recorded in an explicit trace.
-/

namespace Replicated

/-! ## Go standard library pieces used by the code -/

/-- The segments of a character list between occurrences of `sep`: `n` separators give
`n + 1` segments (possibly empty), as `strings.Split` does for a one-character separator. -/
def splitChars (sep : Char) : List Char → List (List Char)
  | [] => [[]]
  | c :: cs =>
    if c = sep then [] :: splitChars sep cs
    else
      match splitChars sep cs with
      | [] => [[c]]
      | seg :: rest => (c :: seg) :: rest

/-- Go `strings.Split(s, sep)` for a separator of one character. -/
def Split (s : String) (sep : Char) : List String :=
  (splitChars sep s.data).map String.mk

/-- Go `strings.HasPrefix(s, "/")` style test for a prefix of one character. -/
def HasPrefix (s : String) (c : Char) : Bool :=
  match s.data with
  | [] => false
  | d :: _ => d == c

/-- Go `strings.Join(parts, sep)`. -/
def Join (parts : List String) (sep : String) : String :=
  String.mk (List.intercalate sep.data (parts.map String.data))

/-! ## `cli/cmd/api_post.go` -/

/-- The endpoint client `kotsclient.VendorV3Client.Post`: given a path and a body it
returns the raw response or an error. -/
abbrev PostClient := String → String → Except String String

/-- What one run of `apiPost` did: the `Post` calls made on the v3 client (path, body),
the bytes written to standard output, and the returned error (`none` is Go `nil`). -/
structure ApiPostRun where
  calls : List (String × String)
  stdout : String
  err : Option String
  deriving DecidableEq, Repr

/-- The loop `for i := len(pathParts) - 1; i >= 0; i-- { if pathParts[i] == "" { remove i } }`.
The first argument is `i + 1`; `none` is an index-out-of-range panic on `pathParts[i]`. -/
def removeEmptyLoop : Nat → List String → Option (List String)
  | 0, pathParts => some pathParts
  | i + 1, pathParts =>
    match pathParts[i]? with
    | none => none
    | some part =>
      if part = "" then removeEmptyLoop i (pathParts.eraseIdx i)
      else removeEmptyLoop i pathParts

/-- The value of `path` after the `HasPrefix` test of `apiPost`. -/
def requestPath (arg : String) : String :=
  if !HasPrefix arg '/' then "/" ++ arg else arg

/-- The value of `pathParts` when the removal loop of `apiPost` has ended. -/
def pathPartsOf (arg : String) : Option (List String) :=
  let pathParts := Split (requestPath arg) '/'
  removeEmptyLoop pathParts.length pathParts

/-- The function `apiPost`, with `r.args.apiPostBody` and the `Post` method of the client
built from `r.platformAPI` as parameters. The result `none` is a runtime panic (index out
of range). -/
def apiPost (post : PostClient) (apiPostBody : String) (args : List String) :
    Option ApiPostRun :=
  match args[0]? with
  | none => none
  | some arg0 =>
    let path := requestPath arg0
    let pathParts := Split path '/'
    match removeEmptyLoop pathParts.length pathParts with
    | none => none
    | some pathParts =>
      match pathParts[0]? with
      | none => none
      | some first =>
        if first = "v1" then
          some { calls := [], stdout := "", err := none }
        else if first = "v3" then
          match post path apiPostBody with
          | .error err => some { calls := [(path, apiPostBody)], stdout := "", err := some err }
          | .ok response => some { calls := [(path, apiPostBody)], stdout := response, err := none }
        else
          some { calls := [], stdout := "", err := none }

/-- The non-empty `/`-separated segments of a string, in order. -/
def nonEmptySegments (s : String) : List String :=
  (Split s '/').filter (fun part => part ≠ "")

/-! ## `cli/test/util.go` -/

/-- The process environment as read by `os.Getenv`: an unset variable reads as `""`. -/
abbrev Env := String → String

/-- The value `creds` that `cleanupApps` encodes as the JSON body of the login request. -/
structure Creds where
  email : String
  password : String
  remember_me : Bool
  deriving DecidableEq, Repr

/-- The parts of an `http.Request` that the code sets. -/
structure Request where
  Method : String
  URL : String
  Header : List (String × String)
  Body : Option Creds
  deriving DecidableEq, Repr

/-- The parts of an `http.Response` that the code reads. -/
structure Response where
  StatusCode : Int
  Body : String
  deriving DecidableEq, Repr

/-- Go `req.Header.Set(key, value)`: the entry for `key` is replaced. -/
def Header.Set (h : List (String × String)) (key value : String) : List (String × String) :=
  h.filter (fun kv => kv.1 ≠ key) ++ [(key, value)]

/-- Go `req.Header.Get(key)`: `""` when the header is absent. -/
def Header.Get (h : List (String × String)) (key : String) : String :=
  match h.find? (fun kv => kv.1 = key) with
  | some kv => kv.2
  | none => ""

/-- The collaborators of `cleanupApps` outside the repository.
* `NewRequest method url` is the error of `http.NewRequest`, `none` when the request is built;
* `Do before req` is the result of `http.DefaultClient.Do(req)` when the calls `before` were
  made earlier in the run (so the answer may depend on the history of the run);
* `DecodeToken body` is `json.NewDecoder(body).Decode(&respBody)` followed by reading
  `respBody.SessionToken`: an error, or the `token` field, `""` when the field is missing. -/
structure Net where
  NewRequest : String → String → Option String
  Do : List Request → Request → Except String Response
  DecodeToken : String → Except String String

/-- The ways the run is aborted through `t.Fatal` / `t.Fatalf`. -/
inductive Fatal where
  /-- The call `t.Fatal(err)` on an error of a library call. -/
  | error (err : String)
  /-- The call `t.Fatalf("Login response status: %d", code)`. -/
  | loginStatus (code : Int)
  /-- The call `t.Fatal("Login failed; cannot delete apps")`. -/
  | loginFailed
  /-- The call `t.Fatalf("Delete app response status: %d", code)`. -/
  | deleteStatus (code : Int)
  deriving DecidableEq, Repr

/-- What one run of `cleanupApps` did: the network calls in the order made, the lines
printed, and whether the run was aborted as failed. -/
structure CleanupRun where
  calls : List Request
  stdout : List String
  failed : Option Fatal
  deriving DecidableEq, Repr

/-- The function `deleteApp` on the package variable `appsToDelete`. -/
def deleteApp (appsToDelete : List String) (id : String) : List String :=
  appsToDelete ++ [id]

/-- The request that `cleanupApps` builds for the login exchange. -/
def loginRequest (idOrigin email password : String) : Request :=
  { Method := "POST"
    URL := idOrigin ++ "/v1/login"
    Header := Header.Set (Header.Set [] "Content-Type" "application/json")
      "Accept" "application/json"
    Body := some { email := email, password := password, remember_me := false } }

/-- The request that `doDeleteApp` builds. -/
def deleteRequest (origin sessionToken id : String) : Request :=
  { Method := "DELETE"
    URL := origin ++ "/v1/app/" ++ id
    Header := Header.Set [] "Authorization" sessionToken
    Body := none }

/-- The function `doDeleteApp`, run after the calls `calls`: the abort it raises (if any)
and the calls made so far when it ends. -/
def doDeleteApp (net : Net) (origin id sessionToken : String) (calls : List Request) :
    Option Fatal × List Request :=
  match net.NewRequest "DELETE" (origin ++ "/v1/app/" ++ id) with
  | some err => (some (.error err), calls)
  | none =>
    let req := deleteRequest origin sessionToken id
    match net.Do calls req with
    | .error err => (some (.error err), calls ++ [req])
    | .ok resp =>
      if resp.StatusCode ≥ 300 then (some (.deleteStatus resp.StatusCode), calls ++ [req])
      else (none, calls ++ [req])

/-- The loop `for _, id := range appsToDelete { doDeleteApp(origin, id, t, sessionToken) }`;
an abort inside `doDeleteApp` ends the run. -/
def deleteLoop (net : Net) (origin sessionToken : String) :
    List String → List Request → Option Fatal × List Request
  | [], calls => (none, calls)
  | id :: rest, calls =>
    match doDeleteApp net origin id sessionToken calls with
    | (some fatal, calls1) => (some fatal, calls1)
    | (none, calls1) => deleteLoop net origin sessionToken rest calls1

/-- The identity origin that `cleanupApps` resolves. -/
def cleanupIdOrigin (env : Env) : String :=
  if env "REPLICATED_ID_ORIGIN" = "" then "https://id.replicated.com"
  else env "REPLICATED_ID_ORIGIN"

/-- The function `cleanupApps`. Encoding `creds` (two strings and a boolean) as JSON has no
error case, so that `t.Fatal` is not reachable and the body is kept as the value encoded. -/
def cleanupApps (env : Env) (net : Net) (appsToDelete : List String) : CleanupRun :=
  if appsToDelete.length = 0 then
    { calls := [], stdout := [], failed := none }
  else
    let origin := env "REPLICATED_API_ORIGIN"
    let idOrigin := cleanupIdOrigin env
    let email := env "VENDOR_USER_EMAIL"
    let password := env "VENDOR_USER_PASSWORD"
    if email = "" ∨ password = "" then
      { calls := []
        stdout := ["VENDOR_USER_EMAIL or VENDOR_USER_PASSWORD not set. Skipping app cleanup"]
        failed := none }
    else
      match net.NewRequest "POST" (idOrigin ++ "/v1/login") with
      | some err => { calls := [], stdout := [], failed := some (.error err) }
      | none =>
        let req := loginRequest idOrigin email password
        match net.Do [] req with
        | .error err => { calls := [req], stdout := [], failed := some (.error err) }
        | .ok resp =>
          if resp.StatusCode ≥ 300 then
            { calls := [req], stdout := [], failed := some (.loginStatus resp.StatusCode) }
          else
            match net.DecodeToken resp.Body with
            | .error err => { calls := [req], stdout := [], failed := some (.error err) }
            | .ok sessionToken =>
              if sessionToken = "" then
                { calls := [req], stdout := [], failed := some .loginFailed }
              else
                let (failed, calls) := deleteLoop net origin sessionToken appsToDelete [req]
                { calls := calls, stdout := [], failed := failed }

/-- The Go struct `Params`. -/
structure Params where
  APIOrigin : String
  IDOrigin : String
  VendorUserEmail : String
  VendorUserPassword : String
  GraphqlOrigin : String
  KurlOrigin : String
  APIToken : String
  deriving DecidableEq, Repr

/-- The function `GetParams`: `.error` is the result `(nil, err)`, `.ok p` is `(p, nil)`. -/
def GetParams (env : Env) : Except String Params :=
  let p : Params :=
    { APIOrigin := env "REPLICATED_API_ORIGIN"
      IDOrigin := env "REPLICATED_ID_ORIGIN"
      VendorUserEmail := env "VENDOR_USER_EMAIL"
      VendorUserPassword := env "VENDOR_USER_PASSWORD"
      GraphqlOrigin := env "REPLICATED_GRAPHQL_ORIGIN"
      KurlOrigin := env "REPLICATED_KURL_ORIGIN"
      APIToken := env "REPLICATED_API_TOKEN" }
  if p.VendorUserPassword = "" ∨ p.VendorUserEmail = "" ∨ p.APIToken = "" then
    .error "Must provide each of VENDOR_USER_EMAIL, VENDOR_USER_PASSWORD, REPLICATED_API_TOKEN"
  else
    let p := if p.APIOrigin = "" then { p with APIOrigin := "https://api.replicated.com/vendor" } else p
    let p := if p.IDOrigin = "" then { p with IDOrigin := "https://id.replicated.com" } else p
    let p := if p.GraphqlOrigin = "" then { p with GraphqlOrigin := "https://g.replicated.com/graphql" } else p
    let p := if p.KurlOrigin = "" then { p with KurlOrigin := "https://kurl.sh" } else p
    .ok p

/-! ## Concrete environments and collaborators, for evaluation at concrete inputs -/

/-- An environment that sets the two cleanup credentials and nothing else. -/
def envCreds : Env := fun name =>
  if name = "VENDOR_USER_EMAIL" then "dev@example.com"
  else if name = "VENDOR_USER_PASSWORD" then "hunter2"
  else ""

/-- A network in which every request is built and answered `200` with the body `tok`,
whose token decodes to the body itself. -/
def netOk : Net :=
  { NewRequest := fun _ _ => none
    Do := fun _ _ => .ok { StatusCode := 200, Body := "tok" }
    DecodeToken := fun body => .ok body }

/-- An environment that sets the three mandatory variables and nothing else. -/
def envMandatory : Env := fun name =>
  if name = "VENDOR_USER_EMAIL" then "dev@example.com"
  else if name = "VENDOR_USER_PASSWORD" then "hunter2"
  else if name = "REPLICATED_API_TOKEN" then "apitoken"
  else ""

/-- A network like `netOk` in which the call made after two earlier calls (the second
delete of a run) meets a transport error. -/
def netSecondDeleteFails : Net :=
  { NewRequest := fun _ _ => none
    Do := fun before _ =>
      if before.length = 2 then .error "connection reset"
      else .ok { StatusCode := 200, Body := "tok" }
    DecodeToken := fun body => .ok body }

/-- A network in which the login is answered with status `401`. -/
def netLoginDenied : Net :=
  { NewRequest := fun _ _ => none
    Do := fun _ _ => .ok { StatusCode := 401, Body := "" }
    DecodeToken := fun body => .ok body }

/-! ## Conditions on the collaborators, as the properties below name them -/

/-- The login request of `cleanupApps` in environment `env`. -/
def loginOf (env : Env) : Request :=
  loginRequest (cleanupIdOrigin env) (env "VENDOR_USER_EMAIL") (env "VENDOR_USER_PASSWORD")

/-- The login request is built, answered with a status below 300, and the answer decodes
to the token `token`. -/
def LoginYields (env : Env) (net : Net) (token : String) : Prop :=
  net.NewRequest "POST" (cleanupIdOrigin env ++ "/v1/login") = none ∧
    ∃ resp, net.Do [] (loginOf env) = .ok resp ∧ resp.StatusCode < 300 ∧
      net.DecodeToken resp.Body = .ok token

/-- The login call is made and fails: a transport error, a status of 300 or more, a body
that does not decode, or a body whose token is missing or empty. -/
def LoginFails (env : Env) (net : Net) : Prop :=
  net.NewRequest "POST" (cleanupIdOrigin env ++ "/v1/login") = none ∧
    ((∃ err, net.Do [] (loginOf env) = .error err) ∨
      ∃ resp, net.Do [] (loginOf env) = .ok resp ∧
        (resp.StatusCode ≥ 300 ∨ (∃ err, net.DecodeToken resp.Body = .error err) ∨
          net.DecodeToken resp.Body = .ok ""))

/-- The delete request for `id`, made after the calls `before`, is built and answered with
a status below 300. -/
def DeleteSucceeds (net : Net) (origin sessionToken : String) (before : List Request)
    (id : String) : Prop :=
  net.NewRequest "DELETE" (origin ++ "/v1/app/" ++ id) = none ∧
    ∃ resp, net.Do before (deleteRequest origin sessionToken id) = .ok resp ∧
      resp.StatusCode < 300

/-- The delete request for `id`, made after the calls `before`, is built and fails: a
transport error or a status of 300 or more. -/
def DeleteFails (net : Net) (origin sessionToken : String) (before : List Request)
    (id : String) : Prop :=
  net.NewRequest "DELETE" (origin ++ "/v1/app/" ++ id) = none ∧
    ((∃ err, net.Do before (deleteRequest origin sessionToken id) = .error err) ∨
      ∃ resp, net.Do before (deleteRequest origin sessionToken id) = .ok resp ∧
        resp.StatusCode ≥ 300)

/-! ## Lemmas on splitting and on the removal loop -/

theorem mk_eq_empty_iff (l : List Char) : String.mk l = "" ↔ l = [] := by
  constructor
  · intro h
    exact congrArg String.data h
  · intro h
    subst h
    rfl

theorem splitChars_ne_nil (sep : Char) (l : List Char) : splitChars sep l ≠ [] := by
  cases l with
  | nil => simp [splitChars]
  | cons c cs =>
    unfold splitChars
    split
    · simp
    · split <;> simp

theorem splitChars_sep_cons (sep : Char) (cs : List Char) :
    splitChars sep (sep :: cs) = [] :: splitChars sep cs := by
  simp [splitChars]

theorem intercalate_splitChars (sep : Char) (l : List Char) :
    List.intercalate [sep] (splitChars sep l) = l := by
  induction l with
  | nil => rfl
  | cons c cs ih =>
    unfold splitChars
    rcases hs : splitChars sep cs with _ | ⟨seg, rest⟩
    · exact absurd hs (splitChars_ne_nil sep cs)
    · rw [hs] at ih
      by_cases hc : c = sep
      · subst hc
        simp only [if_true]
        rw [← ih]
        simp [List.intercalate, List.intersperse]
      · simp only [if_neg hc]
        rw [← ih]
        cases rest <;> simp [List.intercalate, List.intersperse]

/-- The removal loop started at index `n - 1` keeps the non-empty strings among the first
`n` and leaves the others as they are; it never reads out of range. -/
theorem removeEmptyLoop_eq (n : Nat) :
    ∀ pathParts : List String, n ≤ pathParts.length →
      removeEmptyLoop n pathParts =
        some ((pathParts.take n).filter (fun part => part ≠ "") ++ pathParts.drop n) := by
  induction n with
  | zero => intro pathParts _; simp [removeEmptyLoop]
  | succ i ih =>
    intro pathParts hlen
    have hi : i < pathParts.length := hlen
    have htake : pathParts.take (i + 1) = pathParts.take i ++ [pathParts[i]] :=
      (List.take_concat_get' pathParts i hi).symm
    have hdrop : pathParts.drop i = pathParts[i] :: pathParts.drop (i + 1) :=
      List.drop_eq_getElem_cons hi
    unfold removeEmptyLoop
    rw [List.getElem?_eq_getElem hi]
    by_cases hp : pathParts[i] = ""
    · simp only [if_pos hp]
      have hlen2 : i ≤ (pathParts.eraseIdx i).length := by
        rw [List.length_eraseIdx]
        simp only [hi, if_true]
        omega
      rw [ih _ hlen2, htake, List.eraseIdx_eq_take_drop_succ]
      have h1 : (pathParts.take i ++ pathParts.drop (i + 1)).take i = pathParts.take i := by
        rw [List.take_append_of_le_length (by simp; omega)]
        simp
      have h2 : (pathParts.take i ++ pathParts.drop (i + 1)).drop i =
          pathParts.drop (i + 1) := by
        rw [List.drop_append_of_le_length (by simp; omega)]
        simp
      rw [h1, h2]
      simp [hp]
    · simp only [if_neg hp]
      rw [ih _ (by omega), htake, hdrop, List.filter_append]
      simp only [List.filter_cons, List.filter_nil, ne_eq, hp, not_false_eq_true, decide_True,
        if_true, List.append_assoc, List.singleton_append]

theorem removeEmptyLoop_length (pathParts : List String) :
    removeEmptyLoop pathParts.length pathParts =
      some (pathParts.filter (fun part => part ≠ "")) := by
  rw [removeEmptyLoop_eq _ _ (le_refl _)]
  simp

theorem hasPrefix_data (s : String) (h : HasPrefix s '/' = true) :
    ∃ rest, s = String.mk ('/' :: rest) := by
  obtain ⟨l⟩ := s
  cases l with
  | nil => simp [HasPrefix] at h
  | cons d rest =>
    simp [HasPrefix] at h
    subst h
    exact ⟨rest, rfl⟩

theorem requestPath_data (arg : String) :
    ∃ rest, requestPath arg = String.mk ('/' :: rest) ∧
      nonEmptySegments arg = ((splitChars '/' rest).map String.mk).filter
        (fun part => part ≠ "") := by
  unfold requestPath
  cases h : HasPrefix arg '/' with
  | true =>
    obtain ⟨rest, hr⟩ := hasPrefix_data arg h
    refine ⟨rest, by simpa using hr, ?_⟩
    subst hr
    simp [nonEmptySegments, Split, splitChars_sep_cons]
  | false =>
    refine ⟨arg.data, ?_, ?_⟩
    · simp
      rfl
    · simp [nonEmptySegments, Split]

theorem split_mk_slash_cons (rest : List Char) :
    Split (String.mk ('/' :: rest)) '/' = "" :: (splitChars '/' rest).map String.mk := by
  simp [Split, splitChars_sep_cons]

/-- The segments that select the client are the non-empty segments of the argument. -/
theorem nonEmptySegments_requestPath (arg : String) :
    nonEmptySegments (requestPath arg) = nonEmptySegments arg := by
  obtain ⟨rest, hp, hs⟩ := requestPath_data arg
  rw [hp, hs]
  simp [nonEmptySegments, split_mk_slash_cons]

theorem pathPartsOf_eq (arg : String) : pathPartsOf arg = some (nonEmptySegments arg) := by
  unfold pathPartsOf
  simp only
  rw [removeEmptyLoop_length]
  exact congrArg some (nonEmptySegments_requestPath arg)

/-- The run of `apiPost` on one argument, by the first non-empty segment of the argument. -/
theorem apiPost_eq (post : PostClient) (body arg : String) :
    apiPost post body [arg] =
      match (nonEmptySegments arg).head? with
      | none => none
      | some first =>
        if first = "v1" then some { calls := [], stdout := "", err := none }
        else if first = "v3" then
          match post (requestPath arg) body with
          | .error err =>
            some { calls := [(requestPath arg, body)], stdout := "", err := some err }
          | .ok response =>
            some { calls := [(requestPath arg, body)], stdout := response, err := none }
        else some { calls := [], stdout := "", err := none } := by
  have h := pathPartsOf_eq arg
  unfold pathPartsOf at h
  simp only at h
  unfold apiPost
  simp only [List.getElem?_cons_zero, h, ← List.head?_eq_getElem?, List.head?_cons]

/-! ## Lemmas on the delete loop -/

theorem foldl_deleteApp (ids pre : List String) : ids.foldl deleteApp pre = pre ++ ids := by
  induction ids generalizing pre with
  | nil => simp
  | cons id rest ih => simp [ih, deleteApp]

theorem doDeleteApp_of_succeeds (net : Net) (origin token id : String) (calls : List Request)
    (h : DeleteSucceeds net origin token calls id) :
    doDeleteApp net origin id token calls = (none, calls ++ [deleteRequest origin token id]) := by
  obtain ⟨hnew, resp, hdo, hst⟩ := h
  unfold doDeleteApp
  simp only [hnew, hdo]
  rw [if_neg (by omega)]

theorem doDeleteApp_of_fails (net : Net) (origin token id : String) (calls : List Request)
    (h : DeleteFails net origin token calls id) :
    ∃ fatal, doDeleteApp net origin id token calls =
      (some fatal, calls ++ [deleteRequest origin token id]) := by
  obtain ⟨hnew, ⟨err, hdo⟩ | ⟨resp, hdo, hst⟩⟩ := h
  · exact ⟨.error err, by unfold doDeleteApp; simp only [hnew, hdo]⟩
  · refine ⟨.deleteStatus resp.StatusCode, ?_⟩
    unfold doDeleteApp
    simp only [hnew, hdo]
    rw [if_pos hst]

/-- When every delete of the loop succeeds, the loop makes one call per identifier, in
order, and does not abort. -/
theorem deleteLoop_of_succeeds (net : Net) (origin token : String) :
    ∀ (ids : List String) (calls : List Request),
      (∀ j id, ids[j]? = some id →
        DeleteSucceeds net origin token
          (calls ++ (ids.take j).map (deleteRequest origin token)) id) →
      deleteLoop net origin token ids calls =
        (none, calls ++ ids.map (deleteRequest origin token)) := by
  intro ids
  induction ids with
  | nil => intro calls _; simp [deleteLoop]
  | cons id rest ih =>
    intro calls h
    have h0 := h 0 id (List.getElem?_cons_zero ..)
    simp only [List.take_zero, List.map_nil, List.append_nil] at h0
    unfold deleteLoop
    rw [doDeleteApp_of_succeeds net origin token id calls h0]
    simp only
    rw [ih]
    · simp
    · intro j id1 hj
      have := h (j + 1) id1 (by simpa using hj)
      simpa using this

/-- When the deletes before index `k` succeed and the one at index `k` fails, the loop
makes `k + 1` calls and aborts. -/
theorem deleteLoop_of_fails (net : Net) (origin token : String) :
    ∀ (ids : List String) (calls : List Request) (k : Nat) (idk : String),
      ids[k]? = some idk →
      (∀ j id, j < k → ids[j]? = some id →
        DeleteSucceeds net origin token
          (calls ++ (ids.take j).map (deleteRequest origin token)) id) →
      DeleteFails net origin token
        (calls ++ (ids.take k).map (deleteRequest origin token)) idk →
      ∃ fatal, deleteLoop net origin token ids calls =
        (some fatal, calls ++ (ids.take (k + 1)).map (deleteRequest origin token)) := by
  intro ids
  induction ids with
  | nil => intro calls k idk hk; simp at hk
  | cons id rest ih =>
    intro calls k idk hk hpre hfail
    cases k with
    | zero =>
      simp only [List.getElem?_cons_zero, Option.some.injEq] at hk
      subst hk
      simp only [List.take_zero, List.map_nil, List.append_nil] at hfail
      obtain ⟨fatal, hf⟩ := doDeleteApp_of_fails net origin token id calls hfail
      refine ⟨fatal, ?_⟩
      unfold deleteLoop
      rw [hf]
      simp
    | succ k =>
      have h0 := hpre 0 id (by omega) (List.getElem?_cons_zero ..)
      simp only [List.take_zero, List.map_nil, List.append_nil] at h0
      have hk1 : rest[k]? = some idk := by simpa using hk
      have hpre1 : ∀ j id1, j < k → rest[j]? = some id1 →
          DeleteSucceeds net origin token
            ((calls ++ [deleteRequest origin token id]) ++
              (rest.take j).map (deleteRequest origin token)) id1 := by
        intro j id1 hj hget
        have := hpre (j + 1) id1 (by omega) (by simpa using hget)
        simpa using this
      have hfail1 : DeleteFails net origin token
          ((calls ++ [deleteRequest origin token id]) ++
            (rest.take k).map (deleteRequest origin token)) idk := by
        simpa using hfail
      obtain ⟨fatal, hf⟩ := ih _ k idk hk1 hpre1 hfail1
      refine ⟨fatal, ?_⟩
      unfold deleteLoop
      rw [doDeleteApp_of_succeeds net origin token id calls h0]
      simp only
      rw [hf]
      simp

/-- The run of `cleanupApps` once the login has yielded a non-empty token. -/
theorem cleanupApps_of_login (env : Env) (net : Net) (apps : List String) (token : String)
    (hne : apps ≠ [])
    (hemail : env "VENDOR_USER_EMAIL" ≠ "") (hpw : env "VENDOR_USER_PASSWORD" ≠ "")
    (hlogin : LoginYields env net token) (htoken : token ≠ "") :
    cleanupApps env net apps =
      { calls := (deleteLoop net (env "REPLICATED_API_ORIGIN") token apps [loginOf env]).2
        stdout := []
        failed := (deleteLoop net (env "REPLICATED_API_ORIGIN") token apps [loginOf env]).1 } := by
  obtain ⟨hnew, resp, hdo, hst, hdec⟩ := hlogin
  have hlen : apps.length ≠ 0 := by simpa using hne
  unfold loginOf at hdo
  unfold cleanupApps
  simp only [hlen, if_false, hemail, hpw, or_self, hnew, hdo, hdec, htoken]
  rw [if_neg (by omega)]
  rfl

/-- The calls of the delete loop are the earlier calls followed by the delete requests of
a prefix of the identifiers. -/
theorem deleteLoop_calls (net : Net) (origin token : String) :
    ∀ (ids : List String) (calls : List Request),
      ∃ m, (deleteLoop net origin token ids calls).2 =
        calls ++ (ids.take m).map (deleteRequest origin token) := by
  intro ids
  induction ids with
  | nil => intro calls; exact ⟨0, by simp [deleteLoop]⟩
  | cons id rest ih =>
    intro calls
    unfold deleteLoop doDeleteApp
    cases hnew : net.NewRequest "DELETE" (origin ++ "/v1/app/" ++ id) with
    | some err => exact ⟨0, by simp⟩
    | none =>
      cases hdo : net.Do calls (deleteRequest origin token id) with
      | error err => exact ⟨1, by simp [hdo]⟩
      | ok resp =>
        by_cases hst : resp.StatusCode ≥ 300
        · exact ⟨1, by simp [hdo, hst]⟩
        · obtain ⟨m, hm⟩ := ih (calls ++ [deleteRequest origin token id])
          refine ⟨m + 1, ?_⟩
          simp only [hdo, hst, if_false]
          rw [hm]
          simp

/-- Every call of `cleanupApps` is the login request or the delete request, at the origin
read from `REPLICATED_API_ORIGIN` as it is, for an identifier of the registry. -/
theorem cleanupApps_calls_shape (env : Env) (net : Net) (apps : List String) (req : Request)
    (hreq : req ∈ (cleanupApps env net apps).calls) :
    req = loginOf env ∨
      ∃ token id, id ∈ apps ∧ req = deleteRequest (env "REPLICATED_API_ORIGIN") token id := by
  unfold cleanupApps at hreq
  split at hreq
  · simp at hreq
  · dsimp only at hreq
    split at hreq
    · simp at hreq
    · split at hreq
      · simp at hreq
      · split at hreq
        · exact Or.inl (by simpa using hreq)
        · split at hreq
          · exact Or.inl (by simpa using hreq)
          · split at hreq
            · exact Or.inl (by simpa using hreq)
            · rename_i sessionToken _
              split at hreq
              · exact Or.inl (by simpa using hreq)
              · obtain ⟨m, hm⟩ := deleteLoop_calls net (env "REPLICATED_API_ORIGIN")
                  sessionToken apps
                  [loginRequest (cleanupIdOrigin env) (env "VENDOR_USER_EMAIL")
                    (env "VENDOR_USER_PASSWORD")]
                simp only [hm] at hreq
                rcases List.mem_append.mp hreq with h | h
                · exact Or.inl (by simpa using h)
                · obtain ⟨id, hid, rfl⟩ := List.mem_map.mp h
                  exact Or.inr ⟨sessionToken, id, List.mem_of_mem_take hid, rfl⟩

/-! ## The cleanup coordinator -/

theorem header_get_set (h : List (String × String)) (key value : String) :
    Header.Get (Header.Set h key value) key = value := by
  unfold Header.Get Header.Set
  have hnone : (h.filter (fun kv => kv.1 ≠ key)).find? (fun kv => kv.1 = key) = none := by
    rw [List.find?_eq_none]
    intro kv hkv
    simp only [List.mem_filter] at hkv
    simpa using hkv.2
  rw [List.find?_append, hnone]
  simp

/-- C1: with non-empty email and password, a login that yields the non-empty token `token`
and deletes that all succeed, `cleanupApps` on the registry built by `deleteApp` from
`ids` (at least one, duplicates allowed) makes the login call and then one delete call per
identifier, in registration order, each carrying `Authorization = token`, and no other
call; the run is not marked failed. -/
theorem cleanupApps_login_then_deletes (env : Env) (net : Net) (ids : List String)
    (token : String) (hN : 1 ≤ ids.length)
    (hemail : env "VENDOR_USER_EMAIL" ≠ "") (hpw : env "VENDOR_USER_PASSWORD" ≠ "")
    (hlogin : LoginYields env net token) (htoken : token ≠ "")
    (hdel : ∀ j id, ids[j]? = some id →
      DeleteSucceeds net (env "REPLICATED_API_ORIGIN") token
        (loginOf env :: (ids.take j).map (deleteRequest (env "REPLICATED_API_ORIGIN") token))
        id) :
    (cleanupApps env net (ids.foldl deleteApp [])).calls =
        loginOf env :: ids.map (deleteRequest (env "REPLICATED_API_ORIGIN") token) ∧
      (cleanupApps env net (ids.foldl deleteApp [])).calls.length = 1 + ids.length ∧
      (cleanupApps env net (ids.foldl deleteApp [])).failed = none ∧
      (loginOf env).Method = "POST" ∧
      (loginOf env).URL = cleanupIdOrigin env ++ "/v1/login" ∧
      ∀ j id, ids[j]? = some id →
        ∃ req, (cleanupApps env net (ids.foldl deleteApp [])).calls[j + 1]? = some req ∧
          req.Method = "DELETE" ∧
          req.URL = env "REPLICATED_API_ORIGIN" ++ "/v1/app/" ++ id ∧
          Header.Get req.Header "Authorization" = token := by
  have hne : ids ≠ [] := by
    intro h
    subst h
    simp at hN
  have hreg : ids.foldl deleteApp [] = ids := by
    rw [foldl_deleteApp]
    simp
  have hloop := deleteLoop_of_succeeds net (env "REPLICATED_API_ORIGIN") token ids
    [loginOf env] (by simpa using hdel)
  have hrun := cleanupApps_of_login env net ids token hne hemail hpw hlogin htoken
  rw [hloop] at hrun
  rw [hreg, hrun]
  refine ⟨by simp, by simp; omega, rfl, rfl, rfl, ?_⟩
  intro j id hj
  refine ⟨deleteRequest (env "REPLICATED_API_ORIGIN") token id, ?_, rfl, rfl, ?_⟩
  · simp [hj]
  · exact header_get_set [] "Authorization" token

/-- The run on the registry `a, b, a` with every call answered `200`: one login, then the
three deletes in registration order, the duplicate included. -/
theorem cleanupApps_login_then_deletes_witness :
    LoginYields envCreds netOk "tok" ∧
      (cleanupApps envCreds netOk (["a", "b", "a"].foldl deleteApp [])).calls =
        [loginOf envCreds, deleteRequest "" "tok" "a", deleteRequest "" "tok" "b",
          deleteRequest "" "tok" "a"] :=
  ⟨⟨rfl, ⟨200, "tok"⟩, rfl, by decide, rfl⟩,
    (cleanupApps_login_then_deletes envCreds netOk ["a", "b", "a"] "tok" (by decide)
      (by decide) (by decide) ⟨rfl, ⟨200, "tok"⟩, rfl, by decide, rfl⟩ (by decide)
      (fun _ _ _ => ⟨rfl, ⟨200, "tok"⟩, rfl, by decide⟩)).1⟩

/-- C2: when the login succeeds, the deletes for the first `k - 1` identifiers succeed and
the `k`-th delete call fails (transport error or status of 300 or more), `cleanupApps`
makes the login call and exactly the first `k` delete calls, none for the later
identifiers, and the run is marked failed. -/
theorem cleanupApps_delete_fail_fast (env : Env) (net : Net) (ids : List String)
    (token : String) (k : Nat) (idk : String) (hk1 : 1 ≤ k) (hkN : k ≤ ids.length)
    (hidk : ids[k - 1]? = some idk)
    (hemail : env "VENDOR_USER_EMAIL" ≠ "") (hpw : env "VENDOR_USER_PASSWORD" ≠ "")
    (hlogin : LoginYields env net token) (htoken : token ≠ "")
    (hpre : ∀ j id, j < k - 1 → ids[j]? = some id →
      DeleteSucceeds net (env "REPLICATED_API_ORIGIN") token
        (loginOf env :: (ids.take j).map (deleteRequest (env "REPLICATED_API_ORIGIN") token))
        id)
    (hfail : DeleteFails net (env "REPLICATED_API_ORIGIN") token
      (loginOf env ::
        (ids.take (k - 1)).map (deleteRequest (env "REPLICATED_API_ORIGIN") token)) idk) :
    (cleanupApps env net ids).calls =
        loginOf env :: (ids.take k).map (deleteRequest (env "REPLICATED_API_ORIGIN") token) ∧
      ((cleanupApps env net ids).calls.filter (fun req => req.Method = "DELETE")).length = k ∧
      (cleanupApps env net ids).failed ≠ none := by
  have hne : ids ≠ [] := by
    intro h
    subst h
    simp at hkN
    omega
  obtain ⟨fatal, hloop⟩ := deleteLoop_of_fails net (env "REPLICATED_API_ORIGIN") token ids
    [loginOf env] (k - 1) idk hidk (by simpa using hpre) (by simpa using hfail)
  have hk : k - 1 + 1 = k := by omega
  rw [hk] at hloop
  have hrun := cleanupApps_of_login env net ids token hne hemail hpw hlogin htoken
  rw [hloop] at hrun
  rw [hrun]
  refine ⟨by simp, ?_, by simp⟩
  have hL : (loginOf env).Method = "POST" := rfl
  have hD : ∀ l : List String,
      (l.map (deleteRequest (env "REPLICATED_API_ORIGIN") token)).filter
        (fun req => req.Method = "DELETE") =
        l.map (deleteRequest (env "REPLICATED_API_ORIGIN") token) := by
    intro l
    rw [List.filter_eq_self]
    intro req hreq
    obtain ⟨id, _, rfl⟩ := List.mem_map.mp hreq
    rfl
  simp only [List.singleton_append, List.filter_cons, hL]
  rw [if_neg (by decide), hD]
  simp
  omega

/-- The run on the registry `a, b, c` when the second delete meets a transport error: the
delete for `c` is never sent. -/
theorem cleanupApps_delete_fail_fast_witness :
    DeleteFails netSecondDeleteFails "" "tok" [loginOf envCreds, deleteRequest "" "tok" "a"]
        "b" ∧
      (cleanupApps envCreds netSecondDeleteFails ["a", "b", "c"]).calls =
        [loginOf envCreds, deleteRequest "" "tok" "a", deleteRequest "" "tok" "b"] ∧
      (cleanupApps envCreds netSecondDeleteFails ["a", "b", "c"]).failed ≠ none :=
  have h := cleanupApps_delete_fail_fast envCreds netSecondDeleteFails ["a", "b", "c"] "tok"
    2 "b" (by decide) (by decide) rfl (by decide) (by decide)
    ⟨rfl, ⟨200, "tok"⟩, rfl, by decide, rfl⟩ (by decide)
    (fun j _ hj _ => by
      have h0 : j = 0 := by omega
      subst h0
      exact ⟨rfl, ⟨200, "tok"⟩, rfl, by decide⟩)
    ⟨rfl, Or.inl ⟨"connection reset", rfl⟩⟩
  ⟨⟨rfl, Or.inl ⟨"connection reset", rfl⟩⟩, h.1, h.2.2⟩

/-- C3: on a non-empty registry with non-empty email and password, when the login call
fails (transport error, status of 300 or more, or a body whose token is missing or empty),
`cleanupApps` makes the login call only, so no delete call, and the run is marked failed. -/
theorem cleanupApps_login_failure (env : Env) (net : Net) (apps : List String)
    (hne : apps ≠ [])
    (hemail : env "VENDOR_USER_EMAIL" ≠ "") (hpw : env "VENDOR_USER_PASSWORD" ≠ "")
    (hfail : LoginFails env net) :
    (cleanupApps env net apps).calls = [loginOf env] ∧
      (∀ req ∈ (cleanupApps env net apps).calls, req.Method ≠ "DELETE") ∧
      (cleanupApps env net apps).failed ≠ none := by
  have hlen : apps.length ≠ 0 := by simpa using hne
  have hL : (loginOf env).Method ≠ "DELETE" := by
    show "POST" ≠ "DELETE"
    decide
  have key : (cleanupApps env net apps).calls = [loginOf env] ∧
      (cleanupApps env net apps).failed ≠ none := by
    obtain ⟨hnew, ⟨err, hdo⟩ | ⟨resp, hdo, hcase⟩⟩ := hfail
    · unfold loginOf at hdo
      unfold cleanupApps
      simp only [hlen, if_false, hemail, hpw, or_self, hnew, hdo]
      exact ⟨rfl, by simp⟩
    · unfold loginOf at hdo
      unfold cleanupApps
      simp only [hlen, if_false, hemail, hpw, or_self, hnew, hdo]
      by_cases hst : resp.StatusCode ≥ 300
      · rw [if_pos hst]
        exact ⟨rfl, by simp⟩
      · rw [if_neg hst]
        rcases hcase with h | ⟨err, h⟩ | h
        · exact absurd h hst
        · simp only [h]
          exact ⟨rfl, by simp⟩
        · simp only [h, if_true]
          exact ⟨rfl, by simp⟩
  refine ⟨key.1, ?_, key.2⟩
  rw [key.1]
  intro req hreq
  rw [List.mem_singleton.mp hreq]
  exact hL

/-- The run on the registry `a, b` when the login is answered `401`. -/
theorem cleanupApps_login_failure_witness :
    LoginFails envCreds netLoginDenied ∧
      (cleanupApps envCreds netLoginDenied ["a", "b"]).calls = [loginOf envCreds] ∧
      (cleanupApps envCreds netLoginDenied ["a", "b"]).failed ≠ none :=
  have hf : LoginFails envCreds netLoginDenied :=
    ⟨rfl, Or.inr ⟨⟨401, ""⟩, rfl, Or.inl (by decide)⟩⟩
  have h := cleanupApps_login_failure envCreds netLoginDenied ["a", "b"] (by decide)
    (by decide) (by decide) hf
  ⟨hf, h.1, h.2.2⟩

/-- C4: when the registry is empty, or `VENDOR_USER_EMAIL` or `VENDOR_USER_PASSWORD` is
empty (whatever else the registry and the environment hold), `cleanupApps` makes no
network call and does not mark the run failed. -/
theorem cleanupApps_skip (env : Env) (net : Net) (apps : List String)
    (h : apps = [] ∨ env "VENDOR_USER_EMAIL" = "" ∨ env "VENDOR_USER_PASSWORD" = "") :
    (cleanupApps env net apps).calls = [] ∧ (cleanupApps env net apps).failed = none := by
  unfold cleanupApps
  by_cases hlen : apps.length = 0
  · simp only [hlen, if_true, and_self]
  · have hne : apps ≠ [] := by simpa using hlen
    have hcred : env "VENDOR_USER_EMAIL" = "" ∨ env "VENDOR_USER_PASSWORD" = "" := by
      rcases h with h | h
      · exact absurd h hne
      · exact h
    simp only [hlen, if_false, hcred, if_true, and_self]

/-- The run on an empty registry with all credentials set, and the run on the registry `a`
with only `REPLICATED_API_TOKEN` set. -/
theorem cleanupApps_skip_witness :
    envMandatory "VENDOR_USER_EMAIL" ≠ "" ∧
      (cleanupApps envMandatory netOk []).calls = [] ∧
      (cleanupApps (fun name => if name = "REPLICATED_API_TOKEN" then "apitoken" else "")
        netOk ["a"]).calls = [] :=
  ⟨by decide, (cleanupApps_skip envMandatory netOk [] (Or.inl rfl)).1,
    (cleanupApps_skip (fun name => if name = "REPLICATED_API_TOKEN" then "apitoken" else "")
      netOk ["a"] (Or.inr (Or.inl rfl))).1⟩

/-- C5: evaluation at an environment that leaves `REPLICATED_API_ORIGIN` unset. The delete
call of `cleanupApps` goes to the relative URL `/v1/app/app1`: no default origin is put in
front of it, while the identity origin of the same run is defaulted and `GetParams`
resolves the API origin of the same environment to `https://api.replicated.com/vendor`.
(For every environment the origin of a delete call is the variable as read, see
`cleanupApps_calls_shape`.) -/
theorem cleanupApps_delete_url_has_no_default_origin :
    envMandatory "REPLICATED_API_ORIGIN" = "" ∧
      (cleanupApps envMandatory netOk ["app1"]).calls.map (fun req => (req.Method, req.URL)) =
        [("POST", "https://id.replicated.com/v1/login"), ("DELETE", "/v1/app/app1")] ∧
      (GetParams envMandatory).toOption.map (fun p => p.APIOrigin) =
        some "https://api.replicated.com/vendor" := by
  decide

/-- C6: `GetParams` returns the error, and no `Params`, exactly when one of
`VENDOR_USER_EMAIL`, `VENDOR_USER_PASSWORD`, `REPLICATED_API_TOKEN` is empty; otherwise it
returns the `Params` whose mandatory fields are the environment values and whose four
origins are the environment values when non-empty and the defaults otherwise; every field
of a returned `Params` is non-empty. -/
theorem GetParams_spec (env : Env) :
    GetParams env =
        (if env "VENDOR_USER_EMAIL" = "" ∨ env "VENDOR_USER_PASSWORD" = "" ∨
            env "REPLICATED_API_TOKEN" = "" then
          .error "Must provide each of VENDOR_USER_EMAIL, VENDOR_USER_PASSWORD, REPLICATED_API_TOKEN"
        else
          .ok
            { APIOrigin :=
                if env "REPLICATED_API_ORIGIN" = "" then "https://api.replicated.com/vendor"
                else env "REPLICATED_API_ORIGIN"
              IDOrigin :=
                if env "REPLICATED_ID_ORIGIN" = "" then "https://id.replicated.com"
                else env "REPLICATED_ID_ORIGIN"
              VendorUserEmail := env "VENDOR_USER_EMAIL"
              VendorUserPassword := env "VENDOR_USER_PASSWORD"
              GraphqlOrigin :=
                if env "REPLICATED_GRAPHQL_ORIGIN" = "" then "https://g.replicated.com/graphql"
                else env "REPLICATED_GRAPHQL_ORIGIN"
              KurlOrigin :=
                if env "REPLICATED_KURL_ORIGIN" = "" then "https://kurl.sh"
                else env "REPLICATED_KURL_ORIGIN"
              APIToken := env "REPLICATED_API_TOKEN" }) ∧
      ((∃ err, GetParams env = .error err) ↔
        (env "VENDOR_USER_EMAIL" = "" ∨ env "VENDOR_USER_PASSWORD" = "" ∨
          env "REPLICATED_API_TOKEN" = "")) ∧
      ((∃ p, GetParams env = .ok p) ↔
        ¬(env "VENDOR_USER_EMAIL" = "" ∨ env "VENDOR_USER_PASSWORD" = "" ∨
          env "REPLICATED_API_TOKEN" = "")) ∧
      ∀ p, GetParams env = .ok p →
        p.APIOrigin ≠ "" ∧ p.IDOrigin ≠ "" ∧ p.VendorUserEmail ≠ "" ∧
          p.VendorUserPassword ≠ "" ∧ p.GraphqlOrigin ≠ "" ∧ p.KurlOrigin ≠ "" ∧
          p.APIToken ≠ "" := by
  have heq : GetParams env =
        (if env "VENDOR_USER_EMAIL" = "" ∨ env "VENDOR_USER_PASSWORD" = "" ∨
            env "REPLICATED_API_TOKEN" = "" then
          .error "Must provide each of VENDOR_USER_EMAIL, VENDOR_USER_PASSWORD, REPLICATED_API_TOKEN"
        else
          .ok
            { APIOrigin :=
                if env "REPLICATED_API_ORIGIN" = "" then "https://api.replicated.com/vendor"
                else env "REPLICATED_API_ORIGIN"
              IDOrigin :=
                if env "REPLICATED_ID_ORIGIN" = "" then "https://id.replicated.com"
                else env "REPLICATED_ID_ORIGIN"
              VendorUserEmail := env "VENDOR_USER_EMAIL"
              VendorUserPassword := env "VENDOR_USER_PASSWORD"
              GraphqlOrigin :=
                if env "REPLICATED_GRAPHQL_ORIGIN" = "" then "https://g.replicated.com/graphql"
                else env "REPLICATED_GRAPHQL_ORIGIN"
              KurlOrigin :=
                if env "REPLICATED_KURL_ORIGIN" = "" then "https://kurl.sh"
                else env "REPLICATED_KURL_ORIGIN"
              APIToken := env "REPLICATED_API_TOKEN" }) := by
    unfold GetParams
    by_cases hm : env "VENDOR_USER_EMAIL" = "" ∨ env "VENDOR_USER_PASSWORD" = "" ∨
        env "REPLICATED_API_TOKEN" = ""
    · have hm2 : env "VENDOR_USER_PASSWORD" = "" ∨ env "VENDOR_USER_EMAIL" = "" ∨
          env "REPLICATED_API_TOKEN" = "" := by tauto
      simp only [hm, hm2, if_true]
    · have hm2 : ¬(env "VENDOR_USER_PASSWORD" = "" ∨ env "VENDOR_USER_EMAIL" = "" ∨
          env "REPLICATED_API_TOKEN" = "") := by tauto
      simp only [hm, hm2, if_false]
      by_cases h1 : env "REPLICATED_API_ORIGIN" = "" <;>
        by_cases h2 : env "REPLICATED_ID_ORIGIN" = "" <;>
        by_cases h3 : env "REPLICATED_GRAPHQL_ORIGIN" = "" <;>
        by_cases h4 : env "REPLICATED_KURL_ORIGIN" = "" <;>
        simp only [h1, h2, h3, h4, if_true, if_false]
  refine ⟨heq, ?_, ?_, ?_⟩
  · rw [heq]
    by_cases hm : env "VENDOR_USER_EMAIL" = "" ∨ env "VENDOR_USER_PASSWORD" = "" ∨
        env "REPLICATED_API_TOKEN" = ""
    · simp only [hm, if_true, iff_true]
      exact ⟨_, rfl⟩
    · simp only [hm, if_false, iff_false]
      rintro ⟨err, h⟩
      cases h
  · rw [heq]
    by_cases hm : env "VENDOR_USER_EMAIL" = "" ∨ env "VENDOR_USER_PASSWORD" = "" ∨
        env "REPLICATED_API_TOKEN" = ""
    · simp only [hm, if_true, not_true, iff_false]
      rintro ⟨p, h⟩
      cases h
    · simp only [hm, if_false, not_false_eq_true, iff_true]
      exact ⟨_, rfl⟩
  · intro p hp
    rw [heq] at hp
    by_cases hm : env "VENDOR_USER_EMAIL" = "" ∨ env "VENDOR_USER_PASSWORD" = "" ∨
        env "REPLICATED_API_TOKEN" = ""
    · simp only [hm, if_true] at hp
      cases hp
    · simp only [hm, if_false] at hp
      injection hp with hp
      subst hp
      have hm3 : env "VENDOR_USER_EMAIL" ≠ "" ∧ env "VENDOR_USER_PASSWORD" ≠ "" ∧
          env "REPLICATED_API_TOKEN" ≠ "" := by tauto
      refine ⟨?_, ?_, hm3.1, hm3.2.1, ?_, ?_, hm3.2.2⟩
      · show (if env "REPLICATED_API_ORIGIN" = "" then _ else _) ≠ ""
        split
        · decide
        · assumption
      · show (if env "REPLICATED_ID_ORIGIN" = "" then _ else _) ≠ ""
        split
        · decide
        · assumption
      · show (if env "REPLICATED_GRAPHQL_ORIGIN" = "" then _ else _) ≠ ""
        split
        · decide
        · assumption
      · show (if env "REPLICATED_KURL_ORIGIN" = "" then _ else _) ≠ ""
        split
        · decide
        · assumption

/-! ## The request dispatcher -/

/-- C7: for an argument whose first non-empty segment is `v3`, `apiPost` makes exactly one
`Post` call on the v3 client, with the body unchanged; when the call returns a response,
exactly that response is printed and `apiPost` returns nil; when it returns an error,
`apiPost` returns that error and prints nothing. -/
theorem apiPost_v3_forwards (post : PostClient) (arg body : String)
    (hv3 : (nonEmptySegments arg).head? = some "v3") :
    (∀ response, post (requestPath arg) body = .ok response →
        apiPost post body [arg] =
          some { calls := [(requestPath arg, body)], stdout := response, err := none }) ∧
      (∀ err, post (requestPath arg) body = .error err →
        apiPost post body [arg] =
          some { calls := [(requestPath arg, body)], stdout := "", err := some err }) := by
  have hne : ¬(("v3" : String) = "v1") := by decide
  constructor
  · intro response hpost
    rw [apiPost_eq, hv3]
    simp only [hne, if_false, if_true, hpost]
  · intro err hpost
    rw [apiPost_eq, hv3]
    simp only [hne, if_false, if_true, hpost]

/-- The argument `v3/app/ABC/channel` with a JSON body, once with a client that answers and
once with a client that fails. -/
theorem apiPost_v3_forwards_witness :
    (nonEmptySegments "v3/app/ABC/channel").head? = some "v3" ∧
      apiPost (fun _ _ => .ok "[]") "\x7b\"name\":\"x\"\x7d" ["v3/app/ABC/channel"] =
        some { calls := [("/v3/app/ABC/channel", "\x7b\"name\":\"x\"\x7d")], stdout := "[]",
               err := none } ∧
      apiPost (fun _ _ => .error "403") "\x7b\"name\":\"x\"\x7d" ["v3/app/ABC/channel"] =
        some { calls := [("/v3/app/ABC/channel", "\x7b\"name\":\"x\"\x7d")], stdout := "",
               err := some "403" } :=
  ⟨by decide,
    (apiPost_v3_forwards (fun _ _ => .ok "[]") "v3/app/ABC/channel" "\x7b\"name\":\"x\"\x7d"
      (by decide)).1 "[]" rfl,
    (apiPost_v3_forwards (fun _ _ => .error "403") "v3/app/ABC/channel"
      "\x7b\"name\":\"x\"\x7d" (by decide)).2 "403" rfl⟩

/-- C8, as stated, fails: the argument `v3//app` is routed to the v3 client and the path
passed to `Post` is `/v3//app`, with the empty segment kept, not the normalized path
`/v3/app`. -/
theorem apiPost_forwards_unnormalized_path :
    apiPost (fun _ _ => .ok "") "" ["v3//app"] =
        some { calls := [("/v3//app", "")], stdout := "", err := none } ∧
      "/" ++ Join (nonEmptySegments "v3//app") "/" = "/v3/app" ∧
      ("/v3//app" : String) ≠ "/" ++ Join (nonEmptySegments "v3//app") "/" := by
  decide

/-- C8, amended: for every argument that `apiPost` routes to the v3 client, the path passed
to `Post` is the argument itself when it starts with `/` and otherwise `/` followed by the
argument; it starts with `/`, its non-empty segments are those of the argument, and when
none of its segments after the leading `/` is empty it is `/` followed by the non-empty
segments of the argument joined by `/`. -/
theorem apiPost_forwards_prefixed_path (post : PostClient) (arg body : String)
    (run : ApiPostRun) (path b : String)
    (hrun : apiPost post body [arg] = some run) (hcall : (path, b) ∈ run.calls) :
    path = (if HasPrefix arg '/' = true then arg else "/" ++ arg) ∧
      b = body ∧
      HasPrefix path '/' = true ∧
      nonEmptySegments path = nonEmptySegments arg ∧
      ((∀ part ∈ (Split path '/').tail, part ≠ "") →
        path = "/" ++ Join (nonEmptySegments arg) "/") := by
  have hpb : path = requestPath arg ∧ b = body := by
    rw [apiPost_eq] at hrun
    split at hrun
    · cases hrun
    · split at hrun
      · cases hrun
        simp at hcall
      · split at hrun
        · split at hrun <;>
          · cases hrun
            simpa using hcall
        · cases hrun
          simp at hcall
  obtain ⟨hpath, hb⟩ := hpb
  subst hpath
  obtain ⟨rest, hp, hs⟩ := requestPath_data arg
  refine ⟨?_, hb, ?_, nonEmptySegments_requestPath arg, ?_⟩
  · unfold requestPath
    cases HasPrefix arg '/' <;> simp
  · rw [hp]
    rfl
  · intro hall
    rw [hp, split_mk_slash_cons] at hall
    simp only [List.tail_cons] at hall
    have hfilter : ((splitChars '/' rest).map String.mk).filter (fun part => part ≠ "") =
        (splitChars '/' rest).map String.mk := by
      rw [List.filter_eq_self]
      intro part hpart
      simpa using hall part hpart
    rw [hs, hfilter, hp]
    unfold Join
    have hdata : ((splitChars '/' rest).map String.mk).map String.data =
        splitChars '/' rest := by
      rw [List.map_map]
      exact List.map_id _
    have hsep : ("/" : String).data = ['/'] := rfl
    rw [hdata, hsep, intercalate_splitChars]
    rfl

/-- The argument `v3/app/ABC/channel` is forwarded as `/v3/app/ABC/channel`. -/
theorem apiPost_forwards_prefixed_path_witness :
    apiPost (fun _ _ => .ok "[]") "" ["v3/app/ABC/channel"] =
        some { calls := [("/v3/app/ABC/channel", "")], stdout := "[]", err := none } ∧
      ("/v3/app/ABC/channel" : String) =
        "/" ++ Join (nonEmptySegments "v3/app/ABC/channel") "/" :=
  ⟨by decide,
    (apiPost_forwards_prefixed_path (fun _ _ => .ok "[]") "v3/app/ABC/channel" ""
      { calls := [("/v3/app/ABC/channel", "")], stdout := "[]", err := none }
      "/v3/app/ABC/channel" "" (by decide) (by decide)).2.2.2.2 (by decide)⟩

/-- C9: for an argument whose first non-empty segment is neither `v3` nor `v1`, and for an
argument whose first non-empty segment is `v1`, `apiPost` makes no call on the client,
prints nothing and returns nil. -/
theorem apiPost_other_version_noop (post : PostClient) (arg body first : String)
    (hfirst : (nonEmptySegments arg).head? = some first)
    (hver : (first ≠ "v3" ∧ first ≠ "v1") ∨ first = "v1") :
    apiPost post body [arg] = some { calls := [], stdout := "", err := none } := by
  rw [apiPost_eq, hfirst]
  rcases hver with ⟨h3, h1⟩ | h1
  · simp only [h1, h3, if_false]
  · simp only [h1, if_true]

/-- The arguments `/v2/apps` and `v1/apps` reach no client. -/
theorem apiPost_other_version_noop_witness :
    (nonEmptySegments "/v2/apps").head? = some "v2" ∧
      apiPost (fun _ _ => .ok "[]") "" ["/v2/apps"] =
        some { calls := [], stdout := "", err := none } ∧
      apiPost (fun _ _ => .ok "[]") "" ["v1/apps"] =
        some { calls := [], stdout := "", err := none } :=
  ⟨by decide,
    apiPost_other_version_noop (fun _ _ => .ok "[]") "/v2/apps" "" "v2" (by decide)
      (Or.inl (by decide)),
    apiPost_other_version_noop (fun _ _ => .ok "[]") "v1/apps" "" "v1" (by decide)
      (Or.inr rfl)⟩

/-- C10: the removal loop never reads out of range and leaves the non-empty segments of the
argument in order, but that list is empty for the argument `/` (as for the empty argument),
and there the read `pathParts[0]` is out of range: `apiPost` panics, whatever the client
and the body. -/
theorem apiPost_panics_without_segment :
    (∀ arg, pathPartsOf arg = some (nonEmptySegments arg)) ∧
      pathPartsOf "/" = some [] ∧
      pathPartsOf "" = some [] ∧
      (∀ (post : PostClient) (body : String), apiPost post body ["/"] = none) ∧
      ∀ (post : PostClient) (body : String), apiPost post body [""] = none := by
  refine ⟨pathPartsOf_eq, by decide, by decide, ?_, ?_⟩
  · intro post body
    rw [apiPost_eq]
    rfl
  · intro post body
    rw [apiPost_eq]
    rfl

end Replicated
